import Mathlib

/-!
Shallow embedding of `src/main.py` (Earning Backend API, version 7.0.0).

The mutable module-level dict `user_credits` is modelled as an association
list `Ledger`, threaded explicitly through each endpoint: Python dicts
iterate in insertion order and new keys are appended at the end, which a
`List (String × ℚ)` reproduces exactly.  Monetary amounts (Python floats)
are modelled as rationals `ℚ`.  The external chain state read through
`web3` (readiness, address validity, checksumming, treasury balance) is an
oracle record `ChainEnv`, and the outcome of building/signing/broadcasting
the transaction and waiting for its receipt is an oracle value `TxOutcome`,
one constructor per distinct control path of the Python code.

Python string methods are modelled over `String.data` so that everything
reduces in the kernel: `pyLower` for `str.lower()` (ASCII case folding, the
only case relevant for hex addresses), `pyStrip` for `str.strip()`.
-/

deriving instance DecidableEq for Except

/-- Model of Python `str.lower()` (ASCII folding, as used on hex addresses). -/
def pyLower (s : String) : String :=
  ⟨s.data.map Char.toLower⟩

/-- Model of Python `str.strip()`: drop leading and trailing whitespace. -/
def pyStrip (s : String) : String :=
  ⟨((s.data.dropWhile Char.isWhitespace).reverse.dropWhile Char.isWhitespace).reverse⟩

/-- The in-memory credit ledger `user_credits`: insertion-ordered key/value list. -/
abbrev Ledger := List (String × ℚ)

/-- Static price conversion rate `ETH_PRICE = 3450` (main.py line 27). -/
def ETH_PRICE : ℚ := 3450

/-- The case-insensitive key scan
`for key in user_credits: if key.lower() == wallet_lower: ...`
(main.py lines 125-128, 185-189, 270-273): first entry whose lowered key
equals `ℓ`. -/
def findEntry (L : Ledger) (ℓ : String) : Option (String × ℚ) :=
  match L with
  | [] => none
  | (k, v) :: rest => if pyLower k = ℓ then some (k, v) else findEntry rest ℓ

/-- Case-insensitive balance read: the `credits` local of the Python scans
(0 when no key matches). -/
def lookupCredits (L : Ledger) (ℓ : String) : ℚ :=
  match findEntry L ℓ with
  | some kv => kv.2
  | none => 0

/-- Exact-key dict read `user_credits.get(k, 0)` (main.py lines 151, 241). -/
def getExact (L : Ledger) (k : String) : ℚ :=
  match L with
  | [] => 0
  | (k', v) :: rest => if k' = k then v else getExact rest k

/-- Exact-key dict update `user_credits[k] += δ`: add `δ` to the (unique)
entry whose key is exactly `k`. -/
def updateFirst (L : Ledger) (k : String) (δ : ℚ) : Ledger :=
  match L with
  | [] => []
  | (k', v) :: rest =>
    if k' = k then (k', v + δ) :: rest else (k', v) :: updateFirst rest k δ

/-- The credit path of `receive_earnings` (main.py lines 123-135): find an
existing key case-insensitively; if found add to that entry (keeping its
first-seen casing), otherwise insert a new entry under the caller-supplied
casing (appended, as for a new dict key). -/
def creditLedger (L : Ledger) (w : String) (amt : ℚ) : Ledger :=
  match findEntry L (pyLower w) with
  | some kv => updateFirst L kv.1 amt
  | none => L ++ [(w, amt)]

/-- Errors raised by `receive_earnings` / `get_user_credits`
(`HTTPException(400, ...)`). -/
inductive ApiError where
  | badRequest (msg : String)
  | invalidFormat
deriving DecidableEq

/-- Response of `POST /api/treasury/receive` (the ledger-relevant fields;
the treasury-balance snapshot fields are external chain reads). -/
structure ReceiveResp where
  amount_eth : ℚ
  amount_usd : ℚ
  user_total_credits : Option ℚ
deriving DecidableEq

/-- State of `user_credits` after a `receive_earnings` request with a
positive amount: credited case-insensitively unless the wallet is falsy or
the sentinel `"not_connected"` (main.py lines 120-135).  The endpoint
rejects non-positive amounts first (line 114); its response
field `user_total_credits` is `user_credits.get(req.userWallet, 0)` — an
exact-key lookup with the caller-supplied casing on the updated dict —
unless the wallet is the sentinel (line 151). -/
def receiveLedger (L : Ledger) (amountETH : ℚ) (userWallet : String) : Ledger :=
  if userWallet ≠ "" ∧ userWallet ≠ "not_connected"
    then creditLedger L userWallet amountETH else L

/-- `receive_earnings` (main.py lines 107-161), assembled from
`receiveLedger` (the state of `user_credits` after the request) and the
response literal of lines 146-155. -/
def receive_earnings (L : Ledger) (amountETH : ℚ) (userWallet : String) :
    Except ApiError ReceiveResp × Ledger :=
  if amountETH ≤ 0 then (.error (.badRequest "Amount must be positive"), L)
  else
    (.ok { amount_eth := amountETH
           amount_usd := amountETH * ETH_PRICE
           user_total_credits :=
             if userWallet ≠ "not_connected" then
               some (getExact (receiveLedger L amountETH userWallet) userWallet)
             else none },
     receiveLedger L amountETH userWallet)

/-- External chain state read through `web3` during a claim. -/
structure ChainEnv where
  web3_ready : Bool
  isValidAddress : String → Bool
  toChecksum : String → String
  treasuryBalance : ℚ

/-- Outcome of the sign/broadcast/await-receipt sequence (main.py lines
202-224), one constructor per distinct control path: an exception while
building, signing or sending the transaction; an exception (timeout) from
`wait_for_transaction_receipt`; a receipt with `status != 1`; a receipt
with `status == 1` carrying block number and fee. -/
inductive TxOutcome where
  | broadcastError (msg : String)
  | timeoutNoReceipt (msg : String)
  | reverted
  | confirmed (blockNumber : Nat) (gasUsedEth : ℚ) (txHash : String)
deriving DecidableEq

/-- Errors raised by `claim_earnings`, one constructor per `raise` site:
503 "Treasury not initialized"; 400 "Invalid address";
400 "Need {amount}, have {credits}" (carrying both values);
400 "Treasury low: {balance}"; the generic handler
`HTTPException(500, str(e))` (which is what both a broadcast exception and
a confirmation timeout become); 500 "TX reverted". -/
inductive ClaimError where
  | treasuryNotReady
  | invalidAddress
  | insufficientCredits (needAmt haveAmt : ℚ)
  | treasuryLow (bal : ℚ)
  | internalError (msg : String)
  | txReverted
deriving DecidableEq

/-- Success response of `POST /api/claim/earnings` (main.py lines 233-243). -/
structure ClaimSuccess where
  txHash : String
  blockNumber : Nat
  gasUsed : ℚ
  amountSent : ℚ
  recipient : String
  user_remaining_credits : ℚ
deriving DecidableEq

/-- Body of `claim_earnings` after the readiness and address-validity
checks (main.py lines 180-245), with `user_addr` already checksummed.
Scans for credits case-insensitively (lines 181-189); rejects when
`credits < amount` (line 191); rejects when
`treasury_balance < amount + 0.002` (line 199); then branches on the
transaction outcome.  Credits are deducted (exact-key update of
`existing_key`) only in the confirmed branch (lines 228-229), and the
response reads `user_credits.get(existing_key, 0)` on the updated dict
(line 241). -/
def claimChecked (env : ChainEnv) (o : TxOutcome) (L : Ledger)
    (user_addr : String) (a : ℚ) : Except ClaimError ClaimSuccess × Ledger :=
  match findEntry L (pyLower user_addr) with
  | some kv =>
    if kv.2 < a then (.error (.insufficientCredits a kv.2), L)
    else if env.treasuryBalance < a + (2/1000 : ℚ) then
      (.error (.treasuryLow env.treasuryBalance), L)
    else
      match o with
      | .broadcastError msg => (.error (.internalError msg), L)
      | .timeoutNoReceipt msg => (.error (.internalError msg), L)
      | .reverted => (.error .txReverted, L)
      | .confirmed bn g h =>
        (.ok { txHash := h, blockNumber := bn, gasUsed := g, amountSent := a
               recipient := user_addr
               user_remaining_credits := getExact (updateFirst L kv.1 (-a)) kv.1 },
         updateFirst L kv.1 (-a))
  | none =>
    if (0 : ℚ) < a then (.error (.insufficientCredits a 0), L)
    else if env.treasuryBalance < a + (2/1000 : ℚ) then
      (.error (.treasuryLow env.treasuryBalance), L)
    else
      match o with
      | .broadcastError msg => (.error (.internalError msg), L)
      | .timeoutNoReceipt msg => (.error (.internalError msg), L)
      | .reverted => (.error .txReverted, L)
      | .confirmed bn g h =>
        (.ok { txHash := h, blockNumber := bn, gasUsed := g, amountSent := a
               recipient := user_addr, user_remaining_credits := 0 },
         L)

/-- `claim_earnings` (main.py lines 163-251): 503 when web3/treasury is not
initialized (line 169); 400 when `web3.is_address` rejects the stripped
wallet (line 175); otherwise checksum the address and continue in
`claimChecked`. -/
def claim_earnings (env : ChainEnv) (o : TxOutcome) (L : Ledger)
    (userWallet : String) (amountETH : ℚ) :
    Except ClaimError ClaimSuccess × Ledger :=
  if env.web3_ready = false then (.error .treasuryNotReady, L)
  else if env.isValidAddress (pyStrip userWallet) = false then
    (.error .invalidAddress, L)
  else claimChecked env o L (env.toChecksum (pyStrip userWallet)) amountETH

/-- Format check of `get_user_credits` (main.py line 263):
`addr.startswith('0x') and len(addr) == 42`. -/
def validFormat (addr : String) : Bool :=
  (match addr.data with
   | '0' :: 'x' :: _ => true
   | _ => false) && addr.data.length == 42

/-- Response of `GET /api/user/credits/{wallet}` (main.py lines 277-282). -/
structure CreditsResp where
  wallet : String
  credits_eth : ℚ
  credits_usd : ℚ
  can_claim : Bool
deriving DecidableEq

/-- `get_user_credits` (main.py lines 253-288): strip, validate the cheap
`0x`/length-42 format, then a case-insensitive scan for the balance
(0 when absent); never mutates the ledger. -/
def get_user_credits (L : Ledger) (wallet_address : String) :
    Except ApiError CreditsResp :=
  if validFormat (pyStrip wallet_address) = false then .error .invalidFormat
  else
    .ok { wallet := pyStrip wallet_address
          credits_eth := lookupCredits L (pyLower (pyStrip wallet_address))
          credits_usd := lookupCredits L (pyLower (pyStrip wallet_address)) * ETH_PRICE
          can_claim := decide (0 < lookupCredits L (pyLower (pyStrip wallet_address))) }

/-- Whether a claim reply is the success (HTTP 200) response. -/
def claimSucceeded : Except ClaimError ClaimSuccess → Bool
  | .ok _ => true
  | .error _ => false

/-- Invariant: every stored balance is non-negative. -/
def LedgerNonNeg (L : Ledger) : Prop := ∀ kv ∈ L, 0 ≤ kv.2

instance (L : Ledger) : Decidable (LedgerNonNeg L) :=
  List.decidableBAll _ L

/-- Invariant: at most one entry per case-insensitive identity — the
lowered keys are pairwise distinct. -/
def CIDistinct (L : Ledger) : Prop :=
  (L.map fun kv => pyLower kv.1).Nodup

instance (L : Ledger) : Decidable (CIDistinct L) :=
  List.nodupDecidable _

theorem findEntry_key {L : Ledger} {ℓ k : String} {b : ℚ}
    (h : findEntry L ℓ = some (k, b)) : pyLower k = ℓ := by
  induction L with
  | nil => simp [findEntry] at h
  | cons hd tl ih =>
    obtain ⟨k', v⟩ := hd
    by_cases hk : pyLower k' = ℓ
    · rw [findEntry, if_pos hk] at h
      obtain ⟨rfl, rfl⟩ : k' = k ∧ v = b := by simpa using h
      exact hk
    · rw [findEntry, if_neg hk] at h
      exact ih h

theorem findEntry_mem {L : Ledger} {ℓ k : String} {b : ℚ}
    (h : findEntry L ℓ = some (k, b)) : (k, b) ∈ L := by
  induction L with
  | nil => simp [findEntry] at h
  | cons hd tl ih =>
    obtain ⟨k', v⟩ := hd
    by_cases hk : pyLower k' = ℓ
    · rw [findEntry, if_pos hk] at h
      obtain ⟨rfl, rfl⟩ : k' = k ∧ v = b := by simpa using h
      exact List.mem_cons_self _ _
    · rw [findEntry, if_neg hk] at h
      exact List.mem_cons_of_mem _ (ih h)

theorem findEntry_none {L : Ledger} {ℓ : String}
    (h : findEntry L ℓ = none) : ∀ kv ∈ L, pyLower kv.1 ≠ ℓ := by
  induction L with
  | nil => simp
  | cons hd tl ih =>
    obtain ⟨k', v⟩ := hd
    by_cases hk : pyLower k' = ℓ
    · rw [findEntry, if_pos hk] at h
      simp at h
    · rw [findEntry, if_neg hk] at h
      intro kv hkv
      rcases List.mem_cons.mp hkv with rfl | hkv
      · exact hk
      · exact ih h kv hkv

theorem findEntry_updateFirst {L : Ledger} {ℓ k : String} {b : ℚ}
    (h : findEntry L ℓ = some (k, b)) (δ : ℚ) :
    findEntry (updateFirst L k δ) ℓ = some (k, b + δ) := by
  induction L with
  | nil => simp [findEntry] at h
  | cons hd tl ih =>
    obtain ⟨k', v⟩ := hd
    by_cases hk : pyLower k' = ℓ
    · rw [findEntry, if_pos hk] at h
      obtain ⟨rfl, rfl⟩ : k' = k ∧ v = b := by simpa using h
      rw [updateFirst, if_pos rfl, findEntry, if_pos hk]
    · rw [findEntry, if_neg hk] at h
      have hkk : k' ≠ k := fun e => hk (e ▸ findEntry_key h)
      rw [updateFirst, if_neg hkk, findEntry, if_neg hk]
      exact ih h

theorem getExact_updateFirst {L : Ledger} {ℓ k : String} {b : ℚ}
    (h : findEntry L ℓ = some (k, b)) (δ : ℚ) :
    getExact (updateFirst L k δ) k = b + δ := by
  induction L with
  | nil => simp [findEntry] at h
  | cons hd tl ih =>
    obtain ⟨k', v⟩ := hd
    by_cases hk : pyLower k' = ℓ
    · rw [findEntry, if_pos hk] at h
      obtain ⟨rfl, rfl⟩ : k' = k ∧ v = b := by simpa using h
      rw [updateFirst, if_pos rfl, getExact, if_pos rfl]
    · rw [findEntry, if_neg hk] at h
      have hkk : k' ≠ k := fun e => hk (e ▸ findEntry_key h)
      rw [updateFirst, if_neg hkk, getExact, if_neg hkk]
      exact ih h

theorem updateFirst_map_lower (L : Ledger) (k : String) (δ : ℚ) :
    (updateFirst L k δ).map (fun kv => pyLower kv.1)
      = L.map (fun kv => pyLower kv.1) := by
  induction L with
  | nil => rfl
  | cons hd tl ih =>
    obtain ⟨k', v⟩ := hd
    by_cases hk : k' = k
    · rw [updateFirst, if_pos hk]; simp
    · rw [updateFirst, if_neg hk]; simpa using ih

theorem findEntry_append_none {L1 : Ledger} (L2 : Ledger) (ℓ : String)
    (h : findEntry L1 ℓ = none) :
    findEntry (L1 ++ L2) ℓ = findEntry L2 ℓ := by
  induction L1 with
  | nil => rfl
  | cons hd tl ih =>
    obtain ⟨k', v⟩ := hd
    by_cases hk : pyLower k' = ℓ
    · rw [findEntry, if_pos hk] at h; simp at h
    · rw [findEntry, if_neg hk] at h
      rw [List.cons_append, findEntry, if_neg hk]
      exact ih h

theorem updateFirst_append {L : Ledger} {k : String} (v δ : ℚ)
    (h : ∀ kv ∈ L, kv.1 ≠ k) :
    updateFirst (L ++ [(k, v)]) k δ = L ++ [(k, v + δ)] := by
  induction L with
  | nil => simp [updateFirst]
  | cons hd tl ih =>
    obtain ⟨k', v'⟩ := hd
    have hk : k' ≠ k := h (k', v') (List.mem_cons_self _ _)
    rw [List.cons_append, updateFirst, if_neg hk,
      ih fun kv hkv => h kv (List.mem_cons_of_mem _ hkv), List.cons_append]

theorem nonNeg_updateFirst_of_nonneg {L : Ledger} {k : String} {δ : ℚ}
    (h : LedgerNonNeg L) (hδ : 0 ≤ δ) : LedgerNonNeg (updateFirst L k δ) := by
  induction L with
  | nil => exact h
  | cons hd tl ih =>
    obtain ⟨k', v⟩ := hd
    have hv : 0 ≤ v := h (k', v) (List.mem_cons_self _ _)
    have htl : LedgerNonNeg tl := fun kv hkv => h kv (List.mem_cons_of_mem _ hkv)
    by_cases hk : k' = k
    · rw [updateFirst, if_pos hk]
      intro kv hkv
      rcases List.mem_cons.mp hkv with rfl | hkv
      · exact add_nonneg hv hδ
      · exact htl kv hkv
    · rw [updateFirst, if_neg hk]
      intro kv hkv
      rcases List.mem_cons.mp hkv with rfl | hkv
      · exact hv
      · exact ih htl kv hkv

theorem nonNeg_updateFirst_debit {L : Ledger} {ℓ k : String} {b δ : ℚ}
    (h : LedgerNonNeg L) (hf : findEntry L ℓ = some (k, b)) (hb : 0 ≤ b + δ) :
    LedgerNonNeg (updateFirst L k δ) := by
  induction L with
  | nil => exact h
  | cons hd tl ih =>
    obtain ⟨k', v⟩ := hd
    have hv : 0 ≤ v := h (k', v) (List.mem_cons_self _ _)
    have htl : LedgerNonNeg tl := fun kv hkv => h kv (List.mem_cons_of_mem _ hkv)
    by_cases hk : pyLower k' = ℓ
    · rw [findEntry, if_pos hk] at hf
      obtain ⟨rfl, rfl⟩ : k' = k ∧ v = b := by simpa using hf
      rw [updateFirst, if_pos rfl]
      intro kv hkv
      rcases List.mem_cons.mp hkv with rfl | hkv
      · exact hb
      · exact htl kv hkv
    · rw [findEntry, if_neg hk] at hf
      have hkk : k' ≠ k := fun e => hk (e ▸ findEntry_key hf)
      rw [updateFirst, if_neg hkk]
      intro kv hkv
      rcases List.mem_cons.mp hkv with rfl | hkv
      · exact hv
      · exact ih htl hf kv hkv

theorem claim_earnings_checked (env : ChainEnv) (o : TxOutcome) (L : Ledger)
    (w : String) (a : ℚ) (hready : env.web3_ready = true)
    (hvalid : env.isValidAddress (pyStrip w) = true) :
    claim_earnings env o L w a
      = claimChecked env o L (env.toChecksum (pyStrip w)) a := by
  rw [claim_earnings, if_neg (by simp [hready]), if_neg (by simp [hvalid])]

theorem claimChecked_insufficient {env : ChainEnv} {o : TxOutcome} {L : Ledger}
    {u k : String} {a b : ℚ}
    (hf : findEntry L (pyLower u) = some (k, b)) (hlt : b < a) :
    claimChecked env o L u a = (.error (.insufficientCredits a b), L) := by
  simp [claimChecked, hf, hlt]

theorem claimChecked_treasury_low {env : ChainEnv} {o : TxOutcome} {L : Ledger}
    {u k : String} {a b : ℚ}
    (hf : findEntry L (pyLower u) = some (k, b)) (hge : ¬ b < a)
    (hliq : env.treasuryBalance < a + (2/1000 : ℚ)) :
    claimChecked env o L u a = (.error (.treasuryLow env.treasuryBalance), L) := by
  simp [claimChecked, hf, hge, hliq]

theorem claimChecked_broadcast {env : ChainEnv} {L : Ledger}
    {u k : String} {a b : ℚ} {msg : String}
    (hf : findEntry L (pyLower u) = some (k, b)) (hge : ¬ b < a)
    (hliq : ¬ env.treasuryBalance < a + (2/1000 : ℚ)) :
    claimChecked env (.broadcastError msg) L u a
      = (.error (.internalError msg), L) := by
  simp [claimChecked, hf, hge, hliq]

theorem claimChecked_timeout {env : ChainEnv} {L : Ledger}
    {u k : String} {a b : ℚ} {msg : String}
    (hf : findEntry L (pyLower u) = some (k, b)) (hge : ¬ b < a)
    (hliq : ¬ env.treasuryBalance < a + (2/1000 : ℚ)) :
    claimChecked env (.timeoutNoReceipt msg) L u a
      = (.error (.internalError msg), L) := by
  simp [claimChecked, hf, hge, hliq]

theorem claimChecked_reverted {env : ChainEnv} {L : Ledger}
    {u k : String} {a b : ℚ}
    (hf : findEntry L (pyLower u) = some (k, b)) (hge : ¬ b < a)
    (hliq : ¬ env.treasuryBalance < a + (2/1000 : ℚ)) :
    claimChecked env .reverted L u a = (.error .txReverted, L) := by
  simp [claimChecked, hf, hge, hliq]

theorem claimChecked_confirmed {env : ChainEnv} {L : Ledger}
    {u k : String} {a b : ℚ} {bn : Nat} {g : ℚ} {hsh : String}
    (hf : findEntry L (pyLower u) = some (k, b)) (hge : ¬ b < a)
    (hliq : ¬ env.treasuryBalance < a + (2/1000 : ℚ)) :
    claimChecked env (.confirmed bn g hsh) L u a
      = (.ok { txHash := hsh, blockNumber := bn, gasUsed := g, amountSent := a
               recipient := u, user_remaining_credits := b - a },
         updateFirst L k (-a)) := by
  simp [claimChecked, hf, hge, hliq, getExact_updateFirst hf, sub_eq_add_neg]

theorem claim_ok_spend {env : ChainEnv} {o : TxOutcome} {L : Ledger}
    {w k : String} {a b : ℚ}
    (hfind : findEntry L (pyLower (env.toChecksum (pyStrip w))) = some (k, b))
    (hok : claimSucceeded (claim_earnings env o L w a).1 = true) :
    env.web3_ready = true ∧ env.isValidAddress (pyStrip w) = true ∧ a ≤ b
      ∧ (claim_earnings env o L w a).2 = updateFirst L k (-a) := by
  cases hready : env.web3_ready with
  | false =>
    rw [claim_earnings, if_pos hready] at hok
    simp [claimSucceeded] at hok
  | true =>
    cases hvalid : env.isValidAddress (pyStrip w) with
    | false =>
      rw [claim_earnings, if_neg (by simp [hready]), if_pos hvalid] at hok
      simp [claimSucceeded] at hok
    | true =>
      rw [claim_earnings_checked env o L w a hready hvalid] at hok ⊢
      by_cases hba : b < a
      · rw [claimChecked_insufficient hfind hba] at hok
        simp [claimSucceeded] at hok
      · by_cases hliq : env.treasuryBalance < a + (2/1000 : ℚ)
        · rw [claimChecked_treasury_low hfind hba hliq] at hok
          simp [claimSucceeded] at hok
        · cases o with
          | broadcastError msg =>
            rw [claimChecked_broadcast hfind hba hliq] at hok
            simp [claimSucceeded] at hok
          | timeoutNoReceipt msg =>
            rw [claimChecked_timeout hfind hba hliq] at hok
            simp [claimSucceeded] at hok
          | reverted =>
            rw [claimChecked_reverted hfind hba hliq] at hok
            simp [claimSucceeded] at hok
          | confirmed bn g hsh =>
            rw [claimChecked_confirmed hfind hba hliq]
            exact ⟨rfl, rfl, not_lt.mp hba, rfl⟩

theorem nonNeg_creditLedger {L : Ledger} {w : String} {amt : ℚ}
    (h : LedgerNonNeg L) (ha : 0 ≤ amt) : LedgerNonNeg (creditLedger L w amt) := by
  rw [creditLedger]
  cases hf : findEntry L (pyLower w) with
  | some kv => exact nonNeg_updateFirst_of_nonneg h ha
  | none =>
    intro kv hkv
    rcases List.mem_append.mp hkv with hkv | hkv
    · exact h kv hkv
    · obtain rfl : kv = (w, amt) := by simpa using hkv
      exact ha

theorem claimRejectsInsufficient
    (env : ChainEnv) (o : TxOutcome) (L : Ledger) (w : String) (a : ℚ)
    (hready : env.web3_ready = true)
    (hvalid : env.isValidAddress (pyStrip w) = true)
    (hlow : lookupCredits L (pyLower (env.toChecksum (pyStrip w))) < a) :
    claim_earnings env o L w a
      = (.error (.insufficientCredits a
          (lookupCredits L (pyLower (env.toChecksum (pyStrip w))))), L) := by
  rw [claim_earnings_checked env o L w a hready hvalid]
  cases hf : findEntry L (pyLower (env.toChecksum (pyStrip w))) with
  | some kv =>
    obtain ⟨k, b⟩ := kv
    simp only [lookupCredits, hf] at hlow ⊢
    exact claimChecked_insufficient hf hlow
  | none =>
    simp only [lookupCredits, hf] at hlow ⊢
    simp [claimChecked, hf, hlow]

/-- A concrete chain environment for witnesses: web3 connected, every
address accepted, checksumming the identity map, treasury holding 10 ETH. -/
def envOk : ChainEnv :=
  { web3_ready := true
    isValidAddress := fun _ => true
    toChecksum := fun s => s
    treasuryBalance := 10 }

/-- Claim C3: for a claim of amount `a` against an identity whose ledger
balance is `b ≥ a`, when the chain confirms the transfer the claim
succeeds, the ledger balance becomes exactly `b - a`, and the response
carries the transaction hash and the final ledger balance. -/
theorem claim_confirmed_success
    (env : ChainEnv) (L : Ledger) (w k hsh : String) (b a g : ℚ) (bn : Nat)
    (hready : env.web3_ready = true)
    (hvalid : env.isValidAddress (pyStrip w) = true)
    (hfind : findEntry L (pyLower (env.toChecksum (pyStrip w))) = some (k, b))
    (hba : a ≤ b)
    (hliq : ¬ env.treasuryBalance < a + (2/1000 : ℚ)) :
    claim_earnings env (.confirmed bn g hsh) L w a
      = (.ok { txHash := hsh, blockNumber := bn, gasUsed := g, amountSent := a
               recipient := env.toChecksum (pyStrip w)
               user_remaining_credits := b - a },
         updateFirst L k (-a))
    ∧ lookupCredits (claim_earnings env (.confirmed bn g hsh) L w a).2
        (pyLower (env.toChecksum (pyStrip w))) = b - a := by
  rw [claim_earnings_checked env _ L w a hready hvalid,
    claimChecked_confirmed hfind (not_lt.mpr hba) hliq]
  refine ⟨rfl, ?_⟩
  simp [lookupCredits, findEntry_updateFirst hfind, sub_eq_add_neg]

theorem claim_confirmed_success_witness :
    claim_earnings envOk (.confirmed 5 (1/100) "0xhash") [("0xAbC", 1)] "0xAbC" (2/5)
      = (.ok { txHash := "0xhash", blockNumber := 5, gasUsed := 1/100, amountSent := 2/5
               recipient := envOk.toChecksum (pyStrip "0xAbC")
               user_remaining_credits := 1 - 2/5 },
         updateFirst [("0xAbC", 1)] "0xAbC" (-(2/5)))
    ∧ lookupCredits
        (claim_earnings envOk (.confirmed 5 (1/100) "0xhash") [("0xAbC", 1)] "0xAbC" (2/5)).2
        (pyLower (envOk.toChecksum (pyStrip "0xAbC"))) = 1 - 2/5 :=
  claim_confirmed_success envOk [("0xAbC", 1)] "0xAbC" "0xAbC" "0xhash" 1 (2/5) (1/100) 5
    rfl rfl (by norm_num +decide [findEntry, envOk]) (by norm_num) (by norm_num [envOk])

/-- Claim C4: a claim whose requested amount exceeds the current
(case-insensitive) balance fails with the insufficient-credits error
carrying the requested amount and the exact current balance, and the
ledger is left unchanged. -/
theorem claim_insufficient_balance
    (env : ChainEnv) (o : TxOutcome) (L : Ledger) (w : String) (a : ℚ)
    (hready : env.web3_ready = true)
    (hvalid : env.isValidAddress (pyStrip w) = true)
    (hlow : lookupCredits L (pyLower (env.toChecksum (pyStrip w))) < a) :
    claim_earnings env o L w a
      = (.error (.insufficientCredits a
          (lookupCredits L (pyLower (env.toChecksum (pyStrip w))))), L) :=
  claimRejectsInsufficient env o L w a hready hvalid hlow

theorem claim_insufficient_balance_witness :
    claim_earnings envOk (.confirmed 1 0 "h1") [("0xAbC", 1)] "0xAbC" 2
      = (.error (.insufficientCredits 2
          (lookupCredits [("0xAbC", 1)] (pyLower (envOk.toChecksum (pyStrip "0xAbC"))))),
         [("0xAbC", 1)]) :=
  claim_insufficient_balance envOk (.confirmed 1 0 "h1") [("0xAbC", 1)] "0xAbC" 2
    rfl rfl (by norm_num +decide [lookupCredits, findEntry, envOk])

/-- Claim C7: when the broadcast of the transfer fails, or the transaction
is reported reverted, the claim fails with the error corresponding to that
failure path and the ledger balance equals its pre-claim value (the code
never debits before a confirmed receipt, so there is no net change). -/
theorem claim_transfer_failure_restores
    (env : ChainEnv) (L : Ledger) (w : String) (a : ℚ) (msg : String)
    (hready : env.web3_ready = true)
    (hvalid : env.isValidAddress (pyStrip w) = true)
    (hcred : ¬ lookupCredits L (pyLower (env.toChecksum (pyStrip w))) < a)
    (hliq : ¬ env.treasuryBalance < a + (2/1000 : ℚ)) :
    claim_earnings env (.broadcastError msg) L w a
      = (.error (.internalError msg), L)
    ∧ claim_earnings env .reverted L w a = (.error .txReverted, L) := by
  constructor <;>
  · rw [claim_earnings_checked env _ L w a hready hvalid]
    cases hf : findEntry L (pyLower (env.toChecksum (pyStrip w))) with
    | some kv =>
      obtain ⟨k, b⟩ := kv
      simp only [lookupCredits, hf] at hcred
      simp [claimChecked, hf, hcred, hliq]
    | none =>
      simp only [lookupCredits, hf] at hcred
      simp [claimChecked, hf, hcred, hliq]

theorem claim_transfer_failure_restores_witness :
    claim_earnings envOk (.broadcastError "connection error") [("0xAbC", 1)] "0xAbC" (1/2)
      = (.error (.internalError "connection error"), [("0xAbC", 1)])
    ∧ claim_earnings envOk .reverted [("0xAbC", 1)] "0xAbC" (1/2)
      = (.error .txReverted, [("0xAbC", 1)]) :=
  claim_transfer_failure_restores envOk [("0xAbC", 1)] "0xAbC" (1/2) "connection error"
    rfl rfl (by norm_num +decide [lookupCredits, findEntry, envOk]) (by norm_num [envOk])

/-- Claim C8: when treasury liquidity is below the requested amount plus
the fixed safety margin 0.002, the claim is rejected with the
treasury-low error before any transfer is attempted (the result does not
depend on the transaction outcome `o`), and the ledger balance equals its
pre-claim value. -/
theorem claim_treasury_low_rejects
    (env : ChainEnv) (o : TxOutcome) (L : Ledger) (w : String) (a : ℚ)
    (hready : env.web3_ready = true)
    (hvalid : env.isValidAddress (pyStrip w) = true)
    (hcred : ¬ lookupCredits L (pyLower (env.toChecksum (pyStrip w))) < a)
    (hliq : env.treasuryBalance < a + (2/1000 : ℚ)) :
    claim_earnings env o L w a
      = (.error (.treasuryLow env.treasuryBalance), L) := by
  rw [claim_earnings_checked env o L w a hready hvalid]
  cases hf : findEntry L (pyLower (env.toChecksum (pyStrip w))) with
  | some kv =>
    obtain ⟨k, b⟩ := kv
    simp only [lookupCredits, hf] at hcred
    exact claimChecked_treasury_low hf hcred hliq
  | none =>
    simp only [lookupCredits, hf] at hcred
    simp [claimChecked, hf, hcred, hliq]

theorem claim_treasury_low_rejects_witness :
    claim_earnings
        { envOk with treasuryBalance := 1/10 } (.confirmed 1 0 "h1")
        [("0xAbC", 1)] "0xAbC" (1/2)
      = (.error (.treasuryLow (1/10)), [("0xAbC", 1)]) :=
  claim_treasury_low_rejects { envOk with treasuryBalance := 1/10 }
    (.confirmed 1 0 "h1") [("0xAbC", 1)] "0xAbC" (1/2)
    rfl rfl (by norm_num +decide [lookupCredits, findEntry, envOk]) (by norm_num [envOk])

/-- Claim C1 counterexample: with balance 1 and a claim of 2/5 whose
confirmation wait times out, the final ledger still holds 1 — it is NOT
left debited to 1 - 2/5 as the claim states — and the error is the very
same generic internal error a broadcast failure produces, not a distinct
confirmation-timeout kind. -/
theorem claim_timeout_cex :
    (claim_earnings envOk (.timeoutNoReceipt "timed out") [("0xAbC", 1)] "0xAbC" (2/5)).2
      = [("0xAbC", 1)]
    ∧ lookupCredits
        (claim_earnings envOk (.timeoutNoReceipt "timed out") [("0xAbC", 1)] "0xAbC" (2/5)).2
        "0xabc" ≠ 1 - 2/5
    ∧ (claim_earnings envOk (.timeoutNoReceipt "timed out") [("0xAbC", 1)] "0xAbC" (2/5)).1
      = (claim_earnings envOk (.broadcastError "timed out") [("0xAbC", 1)] "0xAbC" (2/5)).1 := by
  norm_num +decide [claim_earnings, claimChecked, envOk, findEntry, lookupCredits]

/-- Claim C1 (amended): when the confirmation wait times out without a
receipt, the claim fails with the generic internal error carrying the
exception text (HTTP 500, the same shape as a broadcast failure — not a
distinct ConfirmationTimeout), and the ledger balance is left at its
pre-claim value, not debited: the code only debits after a confirmed
receipt, so no auto-restore ever happens or is needed. -/
theorem claim_timeout_leaves_balance_undebited
    (env : ChainEnv) (L : Ledger) (w : String) (a : ℚ) (msg : String)
    (hready : env.web3_ready = true)
    (hvalid : env.isValidAddress (pyStrip w) = true)
    (hcred : ¬ lookupCredits L (pyLower (env.toChecksum (pyStrip w))) < a)
    (hliq : ¬ env.treasuryBalance < a + (2/1000 : ℚ)) :
    claim_earnings env (.timeoutNoReceipt msg) L w a
      = (.error (.internalError msg), L) := by
  rw [claim_earnings_checked env _ L w a hready hvalid]
  cases hf : findEntry L (pyLower (env.toChecksum (pyStrip w))) with
  | some kv =>
    obtain ⟨k, b⟩ := kv
    simp only [lookupCredits, hf] at hcred
    exact claimChecked_timeout hf hcred hliq
  | none =>
    simp only [lookupCredits, hf] at hcred
    simp [claimChecked, hf, hcred, hliq]

theorem claim_timeout_leaves_balance_undebited_witness :
    claim_earnings envOk (.timeoutNoReceipt "timed out") [("0xAbC", 1)] "0xAbC" (2/5)
      = (.error (.internalError "timed out"), [("0xAbC", 1)]) :=
  claim_timeout_leaves_balance_undebited envOk [("0xAbC", 1)] "0xAbC" (2/5) "timed out"
    rfl rfl (by norm_num +decide [lookupCredits, findEntry, envOk]) (by norm_num [envOk])

/-- Claim C2: two claims against the same identity can never both succeed
on the same credited funds.  Both endpoint handlers are `async def`
coroutines that contain no `await`: under the single asyncio event loop
started by `uvicorn.run` (main.py line 313) each handler body runs to
completion without interleaving — the blocking `web3` calls block the
whole loop — so two "simultaneous" claims execute in some sequential
order.  The theorem quantifies over the two transaction outcomes and both
orders (by instantiation of `a1`/`a2`): whenever the first claim succeeds,
the second is rejected with the insufficient-credits error for the
decremented balance `b - a1`, hence both can never succeed when the two
amounts together exceed the starting balance. -/
theorem claim_no_double_spend
    (env : ChainEnv) (o1 o2 : TxOutcome) (L : Ledger) (w k : String) (b a1 a2 : ℚ)
    (hfind : findEntry L (pyLower (env.toChecksum (pyStrip w))) = some (k, b))
    (hsum : b < a1 + a2) :
    (claimSucceeded (claim_earnings env o1 L w a1).1 = true →
      (claim_earnings env o2 (claim_earnings env o1 L w a1).2 w a2).1
        = .error (.insufficientCredits a2 (b - a1)))
    ∧ ¬(claimSucceeded (claim_earnings env o1 L w a1).1 = true
        ∧ claimSucceeded
            (claim_earnings env o2 (claim_earnings env o1 L w a1).2 w a2).1 = true) := by
  have hins : claimSucceeded (claim_earnings env o1 L w a1).1 = true →
      (claim_earnings env o2 (claim_earnings env o1 L w a1).2 w a2).1
        = .error (.insufficientCredits a2 (b - a1)) := by
    intro hok1
    obtain ⟨hready, hvalid, hba1, hsnd⟩ := claim_ok_spend hfind hok1
    have hfind2 : findEntry (claim_earnings env o1 L w a1).2
        (pyLower (env.toChecksum (pyStrip w))) = some (k, b + -a1) := by
      rw [hsnd]
      exact findEntry_updateFirst hfind (-a1)
    have hlow2 : lookupCredits (claim_earnings env o1 L w a1).2
        (pyLower (env.toChecksum (pyStrip w))) < a2 := by
      simp only [lookupCredits, hfind2]
      linarith
    rw [claimRejectsInsufficient env o2 _ w a2 hready hvalid hlow2]
    simp only [lookupCredits, hfind2]
    rw [sub_eq_add_neg]
  refine ⟨hins, ?_⟩
  rintro ⟨hok1, hok2⟩
  rw [hins hok1] at hok2
  simp [claimSucceeded] at hok2

theorem claim_no_double_spend_witness :
    (claimSucceeded
        (claim_earnings envOk (.confirmed 1 0 "h1") [("0xAbC", 1)] "0xAbC" (3/5)).1 = true →
      (claim_earnings envOk (.confirmed 2 0 "h2")
        (claim_earnings envOk (.confirmed 1 0 "h1") [("0xAbC", 1)] "0xAbC" (3/5)).2
        "0xAbC" (3/5)).1
        = .error (.insufficientCredits (3/5) (1 - 3/5)))
    ∧ ¬(claimSucceeded
          (claim_earnings envOk (.confirmed 1 0 "h1") [("0xAbC", 1)] "0xAbC" (3/5)).1 = true
        ∧ claimSucceeded
            (claim_earnings envOk (.confirmed 2 0 "h2")
              (claim_earnings envOk (.confirmed 1 0 "h1") [("0xAbC", 1)] "0xAbC" (3/5)).2
              "0xAbC" (3/5)).1 = true) :=
  claim_no_double_spend envOk (.confirmed 1 0 "h1") (.confirmed 2 0 "h2")
    [("0xAbC", 1)] "0xAbC" "0xAbC" 1 (3/5) (3/5)
    (by norm_num +decide [findEntry, envOk]) (by norm_num)

/-- Claim C5 evaluated at the failing input: a claim for `amountETH = 0`
from a wallet with no credits is NOT rejected as a client input error —
the `credits < amount` check (main.py line 191) passes because `0 < 0` is
false, the treasury check passes, a zero-value transfer is attempted, and
on confirmation the endpoint returns success. -/
theorem claim_zero_amount_accepted :
    claim_earnings envOk (.confirmed 3 0 "0xh") [] "0xAbC" 0
      = (.ok { txHash := "0xh", blockNumber := 3, gasUsed := 0, amountSent := 0
               recipient := "0xAbC", user_remaining_credits := 0 }, []) := by
  norm_num +decide [claim_earnings, claimChecked, envOk, findEntry]

theorem claim_snd_state (env : ChainEnv) (o : TxOutcome) (L : Ledger)
    (w : String) (a : ℚ) :
    (claim_earnings env o L w a).2 = L
    ∨ ∃ k δ, (claim_earnings env o L w a).2 = updateFirst L k δ := by
  rw [claim_earnings]
  split_ifs with h1 h2
  · exact Or.inl rfl
  · exact Or.inl rfl
  · rw [claimChecked.eq_def]
    cases hf : findEntry L (pyLower (env.toChecksum (pyStrip w))) with
    | none =>
      dsimp only
      split_ifs with hc ht
      · exact Or.inl rfl
      · exact Or.inl rfl
      · cases o <;> exact Or.inl rfl
    | some kv =>
      obtain ⟨k0, b0⟩ := kv
      dsimp only
      split_ifs with hc ht
      · exact Or.inl rfl
      · exact Or.inl rfl
      · cases o with
        | broadcastError msg => exact Or.inl rfl
        | timeoutNoReceipt msg => exact Or.inl rfl
        | reverted => exact Or.inl rfl
        | confirmed bn g hsh => exact Or.inr ⟨k0, -a, rfl⟩

/-- Claim C6: case-insensitive identity.  (1) Crediting two case-equal
addresses accumulates into a single entry that keeps the first-seen
casing; (2) the balance endpoint returns the same credits for any casing
of an address; (3) crediting preserves the at-most-one-entry-per-
case-insensitive-identity invariant; (4) so does a claim (its only ledger
write is an exact-key update that does not change the key set). -/
theorem case_insensitive_identity :
    (∀ (L : Ledger) (w1 w2 : String) (x y : ℚ),
        pyLower w1 = pyLower w2 → findEntry L (pyLower w1) = none →
        creditLedger (creditLedger L w1 x) w2 y = L ++ [(w1, x + y)])
    ∧ (∀ (L : Ledger) (a1 a2 : String),
        pyLower (pyStrip a1) = pyLower (pyStrip a2) →
        validFormat (pyStrip a1) = true → validFormat (pyStrip a2) = true →
        (get_user_credits L a1).map CreditsResp.credits_eth
          = (get_user_credits L a2).map CreditsResp.credits_eth)
    ∧ (∀ (L : Ledger) (w : String) (x : ℚ),
        CIDistinct L → CIDistinct (creditLedger L w x))
    ∧ (∀ (env : ChainEnv) (o : TxOutcome) (L : Ledger) (w : String) (a : ℚ),
        CIDistinct L → CIDistinct (claim_earnings env o L w a).2) := by
  refine ⟨?_, ?_, ?_, ?_⟩
  · intro L w1 w2 x y hlow hnone
    have h1 : creditLedger L w1 x = L ++ [(w1, x)] := by
      rw [creditLedger, hnone]
    have hone : findEntry [(w1, x)] (pyLower w1) = some (w1, x) := by
      rw [findEntry, if_pos rfl]
    rw [h1, creditLedger, ← hlow, findEntry_append_none [(w1, x)] (pyLower w1) hnone,
      hone]
    exact updateFirst_append x y
      (fun kv hkv e => findEntry_none hnone kv hkv (by rw [e]))
  · intro L a1 a2 hlow hv1 hv2
    rw [get_user_credits, get_user_credits, if_neg (by simp [hv1]),
      if_neg (by simp [hv2])]
    simp [Except.map, hlow]
  · intro L w x h
    rw [creditLedger]
    cases hf : findEntry L (pyLower w) with
    | some kv =>
      rw [CIDistinct, updateFirst_map_lower]
      exact h
    | none =>
      have hd : (L.map fun kv => pyLower kv.1).Disjoint [pyLower w] := by
        intro z hz hz2
        obtain rfl : z = pyLower w := by simpa using hz2
        obtain ⟨kv, hkv, he⟩ := List.mem_map.mp hz
        exact findEntry_none hf kv hkv he
      rw [CIDistinct, List.map_append]
      exact h.append (by simp) hd
  · intro env o L w a h
    rcases claim_snd_state env o L w a with he | ⟨k, δ, he⟩
    · rw [he]; exact h
    · rw [he, CIDistinct, updateFirst_map_lower]; exact h

theorem case_insensitive_identity_witness :
    creditLedger (creditLedger [] "0xAB" 1) "0xab" (1/2) = [] ++ [("0xAB", 1 + 1/2)]
    ∧ (get_user_credits [("0xK", (2:ℚ))]
        "0xAAAAAAAAAAAAAAAAAAAAAAAAAAAAAAAAAAAAAAAA").map CreditsResp.credits_eth
      = (get_user_credits [("0xK", (2:ℚ))]
          "0xaaaaaaaaaaaaaaaaaaaaaaaaaaaaaaaaaaaaaaaa").map CreditsResp.credits_eth
    ∧ CIDistinct (creditLedger [("0xAB", (1:ℚ))] "0xab" (1/2))
    ∧ CIDistinct (claim_earnings envOk (.confirmed 1 0 "h1")
        [("0xAB", (1:ℚ))] "0xAB" (1/2)).2 :=
  ⟨case_insensitive_identity.1 [] "0xAB" "0xab" 1 (1/2) (by decide) rfl,
   case_insensitive_identity.2.1 [("0xK", 2)]
     "0xAAAAAAAAAAAAAAAAAAAAAAAAAAAAAAAAAAAAAAAA"
     "0xaaaaaaaaaaaaaaaaaaaaaaaaaaaaaaaaaaaaaaaa"
     (by decide) (by decide) (by decide),
   case_insensitive_identity.2.2.1 [("0xAB", 1)] "0xab" (1/2) (by decide),
   case_insensitive_identity.2.2.2 envOk (.confirmed 1 0 "h1")
     [("0xAB", 1)] "0xAB" (1/2) (by decide)⟩

/-- Claim C9 evaluated at the failing input: the ledger holds 1 under the
stored key "0xAB"; a receive of 1/2 supplied as "0xab" updates that entry
to 3/2 (case-insensitive credit), but the response reports
`user_total_credits = 0`, because main.py line 151 reads the new total
with a case-sensitive `dict.get` on the caller-supplied casing — not the
updated total the claim (and the endpoint's own credit path) requires. -/
theorem receive_total_misreported_other_casing :
    receive_earnings [("0xAB", 1)] (1/2) "0xab"
      = (.ok { amount_eth := 1/2, amount_usd := 1725, user_total_credits := some 0 },
         [("0xAB", 3/2)])
    ∧ getExact [("0xAB", (3/2 : ℚ))] "0xAB" = 3/2 := by
  constructor
  · norm_num +decide [receive_earnings, receiveLedger, creditLedger, findEntry,
      updateFirst, getExact, ETH_PRICE]
  · norm_num [getExact]

/-- Claim C10: both ledger-mutating operations preserve non-negativity of
every stored balance, for every input amount and every chain outcome: a
credit only happens for strictly positive amounts, and a claim only debits
(after a confirmed receipt) when the checked balance covers the amount.
The balance query `get_user_credits` does not mutate the ledger at all (it
returns no new ledger in the model). -/
theorem ledger_balances_nonnegative :
    (∀ (L : Ledger) (a : ℚ) (w : String),
        LedgerNonNeg L → LedgerNonNeg (receive_earnings L a w).2)
    ∧ (∀ (env : ChainEnv) (o : TxOutcome) (L : Ledger) (w : String) (a : ℚ),
        LedgerNonNeg L → LedgerNonNeg (claim_earnings env o L w a).2) := by
  constructor
  · intro L a w h
    rw [receive_earnings]
    split_ifs with h1 h2
    · exact h
    · show LedgerNonNeg (receiveLedger L a w)
      rw [receiveLedger]
      split_ifs with hw
      · exact nonNeg_creditLedger h (le_of_lt (not_le.mp h1))
      · exact h
    · show LedgerNonNeg (receiveLedger L a w)
      rw [receiveLedger]
      split_ifs with hw
      · exact nonNeg_creditLedger h (le_of_lt (not_le.mp h1))
      · exact h
  · intro env o L w a h
    rw [claim_earnings]
    split_ifs with h1 h2
    · exact h
    · exact h
    · rw [claimChecked.eq_def]
      cases hf : findEntry L (pyLower (env.toChecksum (pyStrip w))) with
      | none =>
        dsimp only
        split_ifs with hc ht
        · exact h
        · exact h
        · cases o <;> exact h
      | some kv =>
        obtain ⟨k0, b0⟩ := kv
        dsimp only
        split_ifs with hc ht
        · exact h
        · exact h
        · cases o with
          | broadcastError msg => exact h
          | timeoutNoReceipt msg => exact h
          | reverted => exact h
          | confirmed bn g hsh =>
            exact nonNeg_updateFirst_debit h hf (by linarith [not_lt.mp hc])

theorem ledger_balances_nonnegative_witness :
    LedgerNonNeg (receive_earnings [("0xAbC", 1)] (1/2) "0xB").2
    ∧ LedgerNonNeg
        (claim_earnings envOk (.confirmed 1 0 "h1") [("0xAbC", 1)] "0xAbC" (2/5)).2 :=
  ⟨ledger_balances_nonnegative.1 [("0xAbC", 1)] (1/2) "0xB"
     (by norm_num [LedgerNonNeg]),
   ledger_balances_nonnegative.2 envOk (.confirmed 1 0 "h1") [("0xAbC", 1)]
     "0xAbC" (2/5) (by norm_num [LedgerNonNeg])⟩
